import Mathlib

/-!
Verification development for the terrahelm Terraform provider
(release reconciliation and source-acquisition pipeline).

The Go source is shallowly embedded: pure fragments become Lean functions,
external effects (subprocess runs, network fetches, JSON/YAML codecs,
the md5 digest) are threaded as explicit outcome parameters, and Go strings
are modeled as Lean `String`s whose operations are re-implemented over the
underlying character lists (ASCII fragment; the provider only manipulates
ASCII command-line tokens and keys).

Source files referenced below:
  provider/provider.go                 (auth, token resolution, redaction)
  provider/resource_terrahelm_release.go  (resource CRUD pipeline)
  provider/data_source_terrahelm_release.go (data source read)
-/

/-! ### Character-list string operations (models of Go `strings` functions) -/

/-- Whitespace test used by the model of Go `strings.TrimSpace`
(ASCII whitespace; the provider trims command output and YAML text). -/
def goIsSpace (c : Char) : Bool :=
  c = ' ' ∨ c = '\t' ∨ c = '\n' ∨ c = '\r' ∨ c = Char.ofNat 11 ∨ c = Char.ofNat 12

/-- Model of Go `strings.TrimSpace` on the character list. -/
def trimChars (cs : List Char) : List Char :=
  ((cs.dropWhile goIsSpace).reverse.dropWhile goIsSpace).reverse

/-- Model of Go `strings.TrimSpace` on strings. -/
def goTrim (s : String) : String := String.mk (trimChars s.data)

/-- ASCII lower-casing of one character (model of Go `strings.ToLower`
restricted to ASCII, which covers the JSON keys compared by the provider). -/
def lowerChar (c : Char) : Char :=
  if 'A' ≤ c ∧ c ≤ 'Z' then Char.ofNat (c.toNat + 32) else c

/-- Model of Go `strings.HasPrefix`. -/
def goStartsWith (pre s : String) : Bool :=
  List.isPrefixOf pre.data s.data

/-- Model of Go `strings.Split(s, sep)` for a one-character separator,
on character lists.  `strings.Split` never returns an empty slice:
splitting the empty string yields `[""]`. -/
def goSplitChars (sep : Char) : List Char → List (List Char)
  | [] => [[]]
  | c :: rest =>
    if c = sep then
      [] :: goSplitChars sep rest
    else
      match goSplitChars sep rest with
      | [] => [[c]]
      | p :: ps => (c :: p) :: ps

/-- Model of Go `strings.Join(parts, sep)` for a one-character separator,
on character lists. -/
def goJoinChars (sep : Char) : List (List Char) → List Char
  | [] => []
  | [p] => p
  | p :: ps => p ++ sep :: goJoinChars sep ps

/-- Syntactic success test for Go `strconv.Atoi`: an optional sign followed
by one or more decimal digits.  (Machine-integer range errors are not
modeled; no claim depends on them.) -/
def goAtoiOk (s : String) : Bool :=
  let ds := match s.data with
    | '+' :: r => r
    | '-' :: r => r
    | r => r
  ds ≠ [] ∧ ds.all (fun c => c.isDigit)

/-- Model of Go `filepath.Join`/`path.Join` for two segments: slash
concatenation, dropping empty segments.  (Path cleaning of `.`/`..` is not
modeled; no claim inspects cleaned paths.) -/
def joinPath (a b : String) : String :=
  if b = "" then a else if a = "" then b else a ++ "/" ++ b

/-! ### Chart string splitting (resource read)

`resourceHelmReleaseRead` splits the `chart` field of the `helm list`
entry on `"-"` and recombines all but the last part:

    chartParts := strings.Split(helmChart.Chart, "-")
    chartVersion := chartParts[len(chartParts)-1]
    chartName := strings.Join(chartParts[:len(chartParts)-1], "-")
-/

/-- The last element of a `strings.Split` result (the split is never
empty, so the default is unreachable). -/
def chartVersionOf (chart : String) : String :=
  String.mk ((goSplitChars '-' chart.data).getLastD [])

/-- All parts but the last, re-joined with `"-"`. -/
def chartNameOf (chart : String) : String :=
  String.mk (goJoinChars '-' (goSplitChars '-' chart.data).dropLast)

/-! ### Fetch retry loops (resourceHelmReleaseCreateOrUpdate)

Both the chart-URL download and each remote values-file download run the
same inline loop:

    for attempt := 0; attempt <= maxRetries; attempt++ {
      getErr = client.Get()
      if getErr == nil { break }
      tflog.Warn(...); time.Sleep(retryDelay)
    }
    if getErr != nil { return ...error... }

The fetch operation is modeled as `op : Nat → Option String` giving the
error (if any) of each attempt, indexed from 0.  The loop's observable
trace is the final error, the number of invocations of `op`, and the list
of sleep durations performed (each is the fixed `retryDelay`).
-/

structure RetryResult where
  err : Option String
  invocations : Nat
  sleeps : List Nat
deriving Repr, DecidableEq

/-- The retry loop with `n` attempts remaining, the next attempt index
`start`, and the error of the previous attempt `last` (the Go loop keeps
the last `getErr` when attempts are exhausted). -/
def runRetry (op : Nat → Option String) (delay : Nat) :
    Nat → Nat → Option String → RetryResult
  | _, 0, last => ⟨last, 0, []⟩
  | start, n + 1, _ =>
    match op start with
    | none => ⟨none, 1, []⟩
    | some e =>
      let r := runRetry op delay (start + 1) n (some e)
      ⟨r.err, r.invocations + 1, delay :: r.sleeps⟩

/-- Chart-URL download with retry (create/update pipeline): on exhausted
retries the last error is wrapped as
`failed to fetch the repository after retries: <err>`. -/
def chartURLFetch (op : Nat → Option String) (maxRetries : Nat) (delay : Nat) :
    Except String Unit × Nat × List Nat :=
  let r := runRetry op delay 0 (maxRetries + 1) none
  match r.err with
  | some e => (.error ("failed to fetch the repository after retries: " ++ e), r.invocations, r.sleeps)
  | none => (.ok (), r.invocations, r.sleeps)

/-- Remote values-file download with retry (create/update pipeline): on
exhausted retries the last error is wrapped as
`failed to fetch value file after retries: <err>`. -/
def valuesFileFetch (op : Nat → Option String) (maxRetries : Nat) (delay : Nat) :
    Except String Unit × Nat × List Nat :=
  let r := runRetry op delay 0 (maxRetries + 1) none
  match r.err with
  | some e => (.error ("failed to fetch value file after retries: " ++ e), r.invocations, r.sleeps)
  | none => (.ok (), r.invocations, r.sleeps)

/-- Git clone step of the create/update pipeline.  The clone subprocess is
run exactly once (`cloneCmd.Run()`); `maxRetries` is in scope at the call
site but never consulted by this block.  `runClone` yields `none` on
success or `some (err, stderr)`; the second component of the result is the
number of clone invocations performed. -/
def gitCloneStep (maxRetries : Nat) (runClone : Unit → Option (String × String)) :
    Except String Unit × Nat :=
  let _ := maxRetries
  match runClone () with
  | none => (.ok (), 1)
  | some (e, stderr) =>
    (.error ("failed to clone the Git repository: " ++ e ++ "\nCommand output: " ++ stderr), 1)

/-- Post-renderer script download of the create/update pipeline.  The
fetch (`client.Get()`) is performed exactly once; `maxRetries` is in scope
at the call site but never consulted by this block. -/
def postRendererFetch (maxRetries : Nat) (getResult : Unit → Option String) :
    Except String Unit × Nat :=
  let _ := maxRetries
  match getResult () with
  | none => (.ok (), 1)
  | some e => (.error ("failed to download post-renderer script: " ++ e), 1)

/-! ### Command-line logging and token redaction (provider.go) -/

/-- Model of `redactHelmArgs` applied to the argument list, before
joining: `--kube-token=...` is rewritten in place, and the value following
a separate `--kube-token` argument is replaced by `REDACTED` (skipping
it). -/
def redactHelmArgsList : List String → List String
  | [] => []
  | a :: rest =>
    if goStartsWith "--kube-token=" a then
      "--kube-token=REDACTED" :: redactHelmArgsList rest
    else if a = "--kube-token" then
      match rest with
      | [] => [a]
      | _ :: rest2 => a :: "REDACTED" :: redactHelmArgsList rest2
    else
      a :: redactHelmArgsList rest

/-- `redactHelmArgs` (provider.go): redact then `strings.Join(..., " ")`. -/
def redactHelmArgs (args : List String) : String :=
  String.intercalate " " (redactHelmArgsList args)

/-- The unredacted command-line string built in
`resourceHelmReleaseCreateOrUpdate`:
`helmCmdString := strings.Join(helmCmd.Args, " ")`. -/
def helmCmdStringOf (args : List String) : String :=
  String.intercalate " " args

/-- The line passed to `tflog.Info` right before executing the install or
upgrade command (resourceHelmReleaseCreateOrUpdate). -/
def installLogLine (args : List String) : String :=
  "\n\nRunning Helm command:\n  " ++ helmCmdStringOf args ++ "\n\n"

/-- The error message produced when the install/upgrade subprocess fails
(non-debug part; debug mode appends stdout/stderr dumps). -/
def installFailureMsg (cmd errText stderrText : String) (args : List String) : String :=
  "failed to " ++ cmd ++ " the Helm chart: " ++ errText ++
    "\nHelm command: " ++ helmCmdStringOf args ++ "\nHelm output: " ++ stderrText

/-! ### Kubernetes auth context and Helm command construction (provider.go) -/

/-- Exec-credential descriptor (`kube_exec` block). -/
structure KubeExec where
  apiVersion : String
  command : String
  args : List String
  env : List (String × String)
  timeoutSeconds : Nat
deriving Repr, DecidableEq

/-- AuthContext resolved once per provider configuration (`KubeAuth`). -/
structure KubeAuth where
  kubeAPIServer : String
  kubeAsGroup : String
  kubeAsUser : String
  kubeCAFile : String
  kubeContext : String
  kubeInsecureSkipTLSVerify : Bool
  kubeTLSServerName : String
  kubeToken : String
  kubeconfig : String
  kubeExec : Option KubeExec
deriving Repr, DecidableEq

/-- The base auth flags appended to every Helm invocation by the
`helmCmdFunc` closure of `configureProvider`, in source order. -/
def baseAuthFlags (auth : KubeAuth) : List String :=
  (if auth.kubeAPIServer ≠ "" then ["--kube-apiserver", auth.kubeAPIServer] else []) ++
  (if auth.kubeAsUser ≠ "" then ["--kube-as-user", auth.kubeAsUser] else []) ++
  (if auth.kubeAsGroup ≠ "" then ["--kube-as-group", auth.kubeAsGroup] else []) ++
  (if auth.kubeCAFile ≠ "" then ["--kube-ca-file", auth.kubeCAFile] else []) ++
  (if auth.kubeContext ≠ "" then ["--kube-context", auth.kubeContext] else []) ++
  (if auth.kubeInsecureSkipTLSVerify then ["--kube-insecure-skip-tls-verify"] else []) ++
  (if auth.kubeTLSServerName ≠ "" then ["--kube-tls-server-name", auth.kubeTLSServerName] else [])

/-- The `--kubeconfig` flag, appended last by `helmCmdFunc`. -/
def kubeconfigFlags (auth : KubeAuth) : List String :=
  if auth.kubeconfig ≠ "" then ["--kubeconfig", auth.kubeconfig] else []

/-- `helmCommandNeedsKubeToken` (provider.go): only the dependency-build
invocation is exempt from token resolution. -/
def helmCommandNeedsKubeToken (args : List String) : Bool :=
  match args with
  | [] => false
  | a :: _ => a ≠ "dependency"

/-- `resolveKubeToken` (provider.go): static token first, else the
exec-credential flow, else empty.  The exec-credential command is an
external process; its outcome (token or failure) is the `execOutcome`
parameter. -/
def resolveKubeToken (auth : KubeAuth) (execOutcome : Except String String) :
    Except String String :=
  if auth.kubeToken ≠ "" then .ok auth.kubeToken
  else
    match auth.kubeExec with
    | none => .ok ""
    | some _ => execOutcome

/-- The `helmCmdFunc` closure of `configureProvider`: builds the full
argument vector `helmBinPath :: args`, appends the base auth flags,
resolves and appends the token when the invocation needs one, and appends
`--kubeconfig` last.  Token-resolution failure aborts command
construction. -/
def helmCmdArgs (helmBinPath : String) (auth : KubeAuth)
    (execOutcome : Except String String) (args : List String) :
    Except String (List String) :=
  let base := helmBinPath :: args ++ baseAuthFlags auth
  if helmCommandNeedsKubeToken args then
    match resolveKubeToken auth execOutcome with
    | .error e => .error e
    | .ok t =>
      let withTok := if t ≠ "" then base ++ ["--kube-token", t] else base
      .ok (withTok ++ kubeconfigFlags auth)
  else
    .ok (base ++ kubeconfigFlags auth)

/-! ### Exec-credential token extraction (provider.go)

Stdout of the exec-credential command is decoded by Go's `encoding/json`
into a dynamic value; that value is modeled by `JVal` (numbers as
integers — the token logic only ever inspects strings).  Go map iteration
order is not specified; objects are modeled as ordered field lists.
-/

inductive JVal where
  | null
  | jbool (b : Bool)
  | jnum (n : Int)
  | jstr (s : String)
  | jarr (items : List JVal)
  | jobj (fields : List (String × JVal))
deriving Repr

/-- `normalizeTokenKey` (provider.go): lower-case and strip `_` and `-`. -/
def normalizeTokenKey (key : String) : String :=
  String.mk (((key.data.map lowerChar).filter (fun c => c ≠ '_')).filter (fun c => c ≠ '-'))

/-- `isTokenKey` (provider.go). -/
def isTokenKey (key : String) : Bool :=
  let n := normalizeTokenKey key
  n = "token" ∨ n = "accesstoken" ∨ n = "idtoken"

/-- `getByNormalizedKey` (provider.go): first field whose normalized key
matches the normalized lookup key. -/
def getByNormalizedKey (fields : List (String × JVal)) (lookup : String) : Option JVal :=
  match fields.find? (fun kv => normalizeTokenKey kv.1 = normalizeTokenKey lookup) with
  | some kv => some kv.2
  | none => none

/-- `getStringByPath` (provider.go): walk the key path through nested
objects; the final value must be a string, which is returned trimmed.
Any mismatch yields the empty string. -/
def getStringByPath : JVal → List String → String
  | .jstr s, [] => goTrim s
  | _, [] => ""
  | .jobj fields, key :: rest =>
    match getByNormalizedKey fields key with
    | some next => getStringByPath next rest
    | none => ""
  | _, _ :: _ => ""

/-- The preferred lookup paths of `extractTokenFromJSONValue`, in source
order. -/
def preferredPaths : List (List String) :=
  [["status", "token"],
   ["status", "accessToken"],
   ["status", "access_token"],
   ["status", "idToken"],
   ["status", "id_token"],
   ["token"],
   ["accessToken"],
   ["access_token"],
   ["idToken"],
   ["id_token"]]

/-- First non-empty string of a list (the `if token != "" return` walk of
the Go loops). -/
def firstNonEmpty : List String → String
  | [] => ""
  | s :: rest => if s ≠ "" then s else firstNonEmpty rest

mutual
/-- `extractTokenFromJSONValue` (provider.go): arrays are scanned
element-wise; objects are first probed through the preferred paths and
then scanned field-by-field (token-family keys holding non-blank strings
win, otherwise the value is searched recursively); all other values yield
the empty string. -/
def extractTokenFromJSONValue : JVal → String
  | .jarr items => extractTokenFromArr items
  | .jobj fields =>
    let fromPaths := firstNonEmpty (preferredPaths.map (getStringByPath (.jobj fields)))
    if fromPaths ≠ "" then fromPaths else extractTokenFromFields fields
  | _ => ""

/-- Array arm of the recursive scan: first non-empty extraction wins. -/
def extractTokenFromArr : List JVal → String
  | [] => ""
  | v :: rest =>
    let t := extractTokenFromJSONValue v
    if t ≠ "" then t else extractTokenFromArr rest

/-- Fallback field scan of the object arm. -/
def extractTokenFromFields : List (String × JVal) → String
  | [] => ""
  | (key, nested) :: rest =>
    let fromKey :=
      if isTokenKey key then
        match nested with
        | .jstr s => goTrim s
        | _ => ""
      else ""
    if fromKey ≠ "" then fromKey
    else
      let t := extractTokenFromJSONValue nested
      if t ≠ "" then t else extractTokenFromFields rest
end

/-- `looksLikeJSON` (provider.go): first byte is one of the three JSON
opener characters. -/
def looksLikeJSON (output : String) : Bool :=
  match output.data with
  | [] => false
  | c :: _ => c = Char.ofNat 123 ∨ c = Char.ofNat 91 ∨ c = Char.ofNat 34

/-- `parseKubeExecToken` (provider.go).  `output` is the already-trimmed
stdout of the exec-credential command; `parsed` is the outcome of Go's
`json.Unmarshal` on it (an external codec). -/
def parseKubeExecToken (output : String) (parsed : Except String JVal) :
    Except String String :=
  if output = "" then .error "kube_exec command returned empty output"
  else if ¬ looksLikeJSON output then .ok output
  else
    match parsed with
    | .error e => .error ("kube_exec output is not valid JSON: " ++ e)
    | .ok (.jstr s) =>
      let token := goTrim s
      if token = "" then .error "kube_exec output JSON missing token field"
      else .ok token
    | .ok v =>
      let token := extractTokenFromJSONValue v
      if token = "" then .error "kube_exec output JSON missing token field"
      else .ok token

/-! ### YAML sanitization (resource_terrahelm_release.go)

`sanitizeYAMLString` delegates parsing and re-serialization to the
external `gopkg.in/yaml.v3` codec; the codec is abstracted as a pair of
functions over an arbitrary document type `V`.
-/

/-- External YAML codec (`yaml.Unmarshal` / `yaml.Marshal`). -/
structure YamlCodec (V : Type) where
  unmarshal : String → Except String V
  marshal : V → Except String String

/-- `sanitizeYAMLString`: whitespace-only input sanitizes to the empty
string; otherwise the input is parsed and re-serialized canonically, each
failure being wrapped with its own message. -/
def sanitizeYAMLString {V : Type} (c : YamlCodec V) (yamlString : String) :
    Except String String :=
  if goTrim yamlString = "" then .ok ""
  else
    match c.unmarshal yamlString with
    | .error e => .error ("failed to parse YAML: " ++ e)
    | .ok parsedYAML =>
      match c.marshal parsedYAML with
      | .error e => .error ("failed to re-serialize YAML: " ++ e)
      | .ok output => .ok output

/-! ### Release state read (resourceHelmReleaseRead, dataSourceHelmReleaseRead)

The read pipeline runs `helm list`, `helm get values -o yaml` and
`helm get values -a -o json`.  Each stage's external outcome (command
construction, subprocess run, JSON decode) is a field of `ReadEnv`.
-/

/-- One entry of the `helm list -o json` output. -/
structure HelmListEntry where
  name : String
  nspace : String
  revision : String
  updated : String
  status : String
  chart : String
  appVersion : String
deriving Repr, DecidableEq

mutual
/-- Model of Go `fmt.Sprintf("%v", v)` for JSON-decoded values, used by
the flattener's default branch.  (Objects inside arrays print in Go's map
format whose key order is unspecified; modeled in field order.) -/
def goFormatV : JVal → String
  | .null => "<nil>"
  | .jbool true => "true"
  | .jbool false => "false"
  | .jnum n => toString n
  | .jstr s => s
  | .jarr items => "[" ++ goFormatArr items ++ "]"
  | .jobj fields => "map[" ++ goFormatFields fields ++ "]"

/-- Space-joined element formatting of an array, as Go's `%v` prints
slices. -/
def goFormatArr : List JVal → String
  | [] => ""
  | [v] => goFormatV v
  | v :: rest => goFormatV v ++ " " ++ goFormatArr rest

/-- Space-joined `key:value` formatting of an object, as Go's `%v` prints
maps. -/
def goFormatFields : List (String × JVal) → String
  | [] => ""
  | [kv] => kv.1 ++ ":" ++ goFormatV kv.2
  | kv :: rest => kv.1 ++ ":" ++ goFormatV kv.2 ++ " " ++ goFormatFields rest
end

mutual
/-- The recursive `traverse` closure of `jsonMapToStringMap`: nested
objects recurse with dotted keys, every other value is stringified. -/
def traverseFlat (parentKey : String) : JVal → List (String × String)
  | .jobj fields => traverseFields parentKey fields
  | v => [(parentKey, goFormatV v)]

/-- Field-list walk of `traverse`, extending the dotted parent key. -/
def traverseFields (parentKey : String) : List (String × JVal) → List (String × String)
  | [] => []
  | (key, v) :: rest =>
    traverseFlat (parentKey ++ "." ++ key) v ++ traverseFields parentKey rest
end

/-- `jsonMapToStringMap`: flatten a decoded JSON object into dotted string
keys.  (The Go function's error return is structurally always `nil` —
`traverse` never fails — so the model is total.) -/
def jsonMapToStringMap (rawValues : List (String × JVal)) : List (String × String) :=
  rawValues.flatMap (fun kv => traverseFlat kv.1 kv.2)

/-- External outcomes consumed by one run of the read pipeline, stage by
stage.  A `some e` in a `*Build` field is a failure of `config.HelmCmd`
(token resolution); `*Run` is the subprocess outcome; `*Parsed` is the
JSON decode of the captured output. -/
structure ReadEnv where
  listBuild : Option String
  listRun : Except String Unit
  listParsed : Except String (List HelmListEntry)
  userBuild : Option String
  userRun : Except String String
  allBuild : Option String
  allRun : Except String Unit
  allParsed : Except String (List (String × JVal))

/-- The normalized release-state record written back to the schema layer
by a successful read. -/
structure ReadState where
  releaseChartName : String
  releaseChartVersion : String
  releaseRevision : String
  releaseStatus : String
  valuesYaml : String
  releaseValues : List (String × String)
deriving Repr, DecidableEq

/-- `resourceHelmReleaseRead`: list the release (an empty result array is
the fatal `failed to list Helm chart` error), split the chart string,
sanitize the user-supplied values view, and flatten the resolved values
view. -/
def resourceHelmReleaseRead {V : Type} (c : YamlCodec V) (name : String)
    (env : ReadEnv) : Except String ReadState :=
  match env.listBuild with
  | some e => .error e
  | none =>
  match env.listRun with
  | .error e => .error ("failed to retrieve Helm chart information: " ++ e)
  | .ok _ =>
  match env.listParsed with
  | .error e => .error ("failed to unmarshal Helm chart information: " ++ e)
  | .ok helmList =>
  match helmList with
  | [] => .error ("failed to list Helm chart: " ++ name)
  | helmChart :: _ =>
    let chartVersion := chartVersionOf helmChart.chart
    let chartName := chartNameOf helmChart.chart
    match env.userBuild with
    | some e => .error e
    | none =>
    match env.userRun with
    | .error e => .error ("failed to retrieve Helm values: " ++ e)
    | .ok userValuesOutput =>
    match sanitizeYAMLString c userValuesOutput with
    | .error e => .error ("failed to sanitize Helm release values: " ++ e)
    | .ok safeVal =>
    match env.allBuild with
    | some e => .error e
    | none =>
    match env.allRun with
    | .error e => .error ("failed to retrieve Helm release values: " ++ e)
    | .ok _ =>
    match env.allParsed with
    | .error e => .error ("failed to unmarshal Helm release values: " ++ e)
    | .ok rawValues =>
      .ok ⟨chartName, chartVersion, helmChart.revision, helmChart.status,
           safeVal, jsonMapToStringMap rawValues⟩

/-- `dataSourceHelmReleaseRead` (data_source_terrahelm_release.go): set
the identity `<namespace>/<name>` and delegate to the resource read,
returning its diagnostics unchanged. -/
def dataSourceHelmReleaseRead {V : Type} (c : YamlCodec V) (name nspace : String)
    (env : ReadEnv) : String × Except String ReadState :=
  (nspace ++ "/" ++ name, resourceHelmReleaseRead c name env)

/-! ### Release delete (resourceHelmReleaseDelete) -/

/-- Persisted resource data relevant to delete: the identity string and
the stored attribute fields. -/
structure ResourceState where
  id : String
  storedFields : List (String × String)
deriving Repr, DecidableEq

/-- Outcome of `config.HelmCmd(ctx, "uninstall", name, "--namespace", ns)`
followed by `cmd.CombinedOutput()`: outer error is command construction
(token resolution), inner error carries (run error, combined output). -/
def resourceHelmReleaseDelete (st : ResourceState)
    (cmdOutcome : Except String (Except (String × String) String)) :
    ResourceState × Option String :=
  match cmdOutcome with
  | .error e => (st, some e)
  | .ok (.error (e, output)) =>
    (st, some ("failed to uninstall Helm release: " ++ e ++ ", Output: " ++ output))
  | .ok (.ok _) => ({ st with id := "" }, none)

/-! ### Chart source resolution and install argv (resourceHelmReleaseCreateOrUpdate)

The md5 digest of `generateHash` comes from Go's `crypto/md5`; the hex
digest is the external parameter `md5hex`, the 8-character truncation is
the repository's own logic.
-/

/-- `generateHash`: hex digest truncated to 8 characters. -/
def generateHash (md5hex : String → String) (input : String) : String :=
  let hashStr := md5hex input
  if 0 < 8 ∧ 8 < hashStr.data.length then String.mk (hashStr.data.take 8) else hashStr

/-- `isRemoteChartRepoURL`. -/
def isRemoteChartRepoURL (chartRepository : String) : Bool :=
  goStartsWith "http://" chartRepository ∨ goStartsWith "https://" chartRepository

/-- `isLocalChartRepoPath` (`filepath.IsAbs` modeled as a leading slash —
the provider targets Unix paths). -/
def isLocalChartRepoPath (chartRepository : String) : Bool :=
  goStartsWith "/" chartRepository ∨ goStartsWith "." chartRepository

/-- Declarative inputs of one create/update reconciliation, as read from
the schema, together with the external outcomes it consumes.  `md5hex` is
the external md5 codec and `execOutcome` the exec-credential outcome. -/
structure InstallInputs where
  helmBinPath : String
  auth : KubeAuth
  execOutcome : Except String String
  isUpdate : Bool
  name : String
  chartRepository : String
  gitRepository : String
  gitReference : String
  chartPath : String
  chartURL : String
  cacheDir : String
  values : String
  valuesFiles : List String
  nspace : String
  createNamespace : Bool
  chartVersion : String
  wait : Bool
  atomic : Bool
  debug : Bool
  timeout : String
  postRenderer : String
  postRendererURL : String
  customArgs : List String
  helmMajor : Nat

/-- The cache repo directory `cacheDir/repos/{name}-{hash(git+url)}`,
derived only when no chart repository is configured. -/
def repoPathOf (md5hex : String → String) (I : InstallInputs) : String :=
  if I.chartRepository = "" then
    joinPath (joinPath I.cacheDir "repos")
      (I.name ++ "-" ++ generateHash md5hex (I.gitRepository ++ I.chartURL))
  else ""

/-- The chart path passed positionally to `helm install|upgrade`,
following the `chartRepository` switch of the source. -/
def fullChartPathOf (md5hex : String → String) (I : InstallInputs) : String :=
  if I.chartRepository ≠ "" then
    if isRemoteChartRepoURL I.chartRepository then
      (if I.chartPath ≠ "" then I.chartPath else I.chartRepository)
    else joinPath I.chartRepository I.chartPath
  else joinPath (repoPathOf md5hex I) I.chartPath

/-- The `--repo` URL: only a remote (`http(s)://`) chart repository. -/
def chartRepoURLOf (I : InstallInputs) : String :=
  if I.chartRepository ≠ "" ∧ isRemoteChartRepoURL I.chartRepository then I.chartRepository
  else ""

/-- The values cache directory used for downloaded values files:
`cacheDir/values/{name}` extended by the git reference or the chart
repository. -/
def valuesFilesDirOf (I : InstallInputs) : String :=
  let base := joinPath (joinPath I.cacheDir "values") I.name
  if I.gitReference ≠ "" then joinPath base I.gitReference
  else if I.chartRepository ≠ "" then joinPath base I.chartRepository
  else base

/-- Resolution of one `values_files` entry: a `.`-prefixed entry with a
repo directory available resolves inside the repo, anything else is
downloaded to `{dir}/{name}-{hash(entry)}-values.yaml`. -/
def resolveValuesFilePath (md5hex : String → String) (I : InstallInputs)
    (vf : String) : String :=
  if goStartsWith "." vf ∧ repoPathOf md5hex I ≠ "" then
    joinPath (repoPathOf md5hex I) vf
  else
    joinPath (valuesFilesDirOf I)
      (I.name ++ "-" ++ generateHash md5hex vf ++ "-values.yaml")

/-- All resolved values-file paths, in the caller-supplied order. -/
def resolveValuesFilePaths (md5hex : String → String) (I : InstallInputs) : List String :=
  I.valuesFiles.map (resolveValuesFilePath md5hex I)

/-- The directory for the materialized inline-values file.  The source
recomputes it as `cacheDir/values/{chartRepository}` extended by the git
reference or (again) the chart repository. -/
def inlineValuesDirOf (I : InstallInputs) : String :=
  let base := joinPath (joinPath I.cacheDir "values") I.chartRepository
  if I.gitReference ≠ "" then joinPath base I.gitReference
  else if I.chartRepository ≠ "" then joinPath base I.chartRepository
  else base

/-- The path of the materialized inline-values file:
`{dir}/{name}-{hash(values)}-values.yaml`. -/
def inlineValuesFilePathOf (md5hex : String → String) (I : InstallInputs) : String :=
  joinPath (inlineValuesDirOf I)
    (I.name ++ "-" ++ generateHash md5hex I.values ++ "-values.yaml")

/-- Timeout normalization: a bare integer gets an `s` suffix, anything
else passes through unchanged. -/
def normalizeTimeout (timeout : String) : String :=
  if goAtoiOk timeout then timeout ++ "s" else timeout

/-- The post-renderer plugin name generated by `ensurePostRendererPlugin`
for Helm major versions at least 4. -/
def postRendererPluginName (md5hex : String → String) (command : String)
    (args : List String) (postRendererURL : String) : String :=
  "terrahelm-postrender-" ++
    generateHash md5hex
      (command ++ "\x00" ++ String.intercalate "\x00" args ++ "\x00" ++ postRendererURL)

/-- The effective post-renderer command string: when only a URL is given,
the downloaded script at `{cache}/postrender/{hash(url)}/postrender/renderer`
becomes the command. -/
def effectivePostRenderer (md5hex : String → String) (I : InstallInputs) : String :=
  if I.postRendererURL ≠ "" ∧ I.postRenderer = "" then
    joinPath
      (joinPath (joinPath (joinPath I.cacheDir "postrender")
        (generateHash md5hex I.postRendererURL)) "postrender")
      "renderer"
  else I.postRenderer

/-- The post-renderer CLI flags: whitespace-split the command string; Helm
4 and later receive a generated plugin name, earlier versions the command
plus `--post-renderer-args`. -/
def postRendererFlagsOf (md5hex : String → String) (I : InstallInputs) : List String :=
  let pr := effectivePostRenderer md5hex I
  if pr ≠ "" then
    let parts := (goSplitChars ' ' pr.data).map String.mk
    let cmd := parts.headD ""
    let cmdArgs := parts.tail
    if cmd ≠ "" then
      if 4 ≤ I.helmMajor then
        ["--post-renderer", postRendererPluginName md5hex cmd cmdArgs I.postRendererURL]
      else
        ["--post-renderer", cmd] ++
          (if cmdArgs ≠ [] then "--post-renderer-args" :: cmdArgs else [])
    else []
  else []

/-- The `-f` flags for the resolved values files, in input order. -/
def valuesFileFlags (paths : List String) : List String :=
  (paths.map (fun p => ["-f", p])).flatten

/-- The argv trailer appended after the values flags: namespace, flags,
timeout, post-renderer and the verbatim custom arguments, in source
order. -/
def installArgvTrailer (md5hex : String → String) (I : InstallInputs) : List String :=
  (if I.nspace ≠ "" then ["--namespace", I.nspace] else []) ++
  (if I.createNamespace then ["--create-namespace"] else []) ++
  (if I.chartVersion ≠ "" then ["--version", I.chartVersion] else []) ++
  (if I.wait then ["--wait"] else []) ++
  (if I.atomic then ["--atomic"] else []) ++
  (if I.debug then ["--debug"] else []) ++
  (if I.timeout ≠ "" then ["--timeout", normalizeTimeout I.timeout] else []) ++
  postRendererFlagsOf md5hex I ++
  I.customArgs

/-- The full `helm install|upgrade` argument vector built by
`resourceHelmReleaseCreateOrUpdate`: the `HelmCmd` base (binary,
subcommand, name, chart path, auth flags, token, kubeconfig), then
`--repo`, the values-file `-f` flags in caller order, the inline-values
`-f` flag, and the trailer. -/
def installArgv (md5hex : String → String) (I : InstallInputs) :
    Except String (List String) :=
  let cmdName := if I.isUpdate then "upgrade" else "install"
  match helmCmdArgs I.helmBinPath I.auth I.execOutcome
      [cmdName, I.name, fullChartPathOf md5hex I] with
  | .error e => .error e
  | .ok base =>
    .ok (base ++
      (if chartRepoURLOf I ≠ "" then ["--repo", chartRepoURLOf I] else []) ++
      (if I.valuesFiles ≠ [] then valuesFileFlags (resolveValuesFilePaths md5hex I) else []) ++
      (if I.values ≠ "" then ["-f", inlineValuesFilePathOf md5hex I] else []) ++
      installArgvTrailer md5hex I)

mutual
/-- Extraction of the `-f` flag values of an argument vector, in order
(each `-f` consumes the following argument). -/
def fFlagValues : List String → List String
  | [] => []
  | a :: rest => if a = "-f" then fFlagTake rest else fFlagValues rest

/-- Consume the argument following a `-f` flag. -/
def fFlagTake : List String → List String
  | [] => []
  | v :: rest => v :: fFlagValues rest
end

/-! ### Helper lemmas on the retry loop -/

/-- When every attempt fails, the loop performs all remaining attempts,
keeps the last error, and sleeps the fixed delay after each failure. -/
theorem runRetry_allFail (op : Nat → Option String) (err : Nat → String) (d : Nat)
    (h : ∀ i, op i = some (err i)) :
    ∀ n start last, runRetry op d start (n + 1) last =
      ⟨some (err (start + n)), n + 1, List.replicate (n + 1) d⟩ := by
  intro n
  induction n with
  | zero =>
    intro start last
    simp [runRetry, h start]
  | succ k ih =>
    intro start last
    have harith : start + 1 + k = start + (k + 1) := by omega
    have step : runRetry op d start (k + 1 + 1) last
        = (match op start with
           | none => ⟨none, 1, []⟩
           | some e =>
             let r := runRetry op d (start + 1) (k + 1) (some e)
             ⟨r.err, r.invocations + 1, d :: r.sleeps⟩) := rfl
    rw [step, h start]
    simp [ih (start + 1) (some (err start)), harith, List.replicate_succ]

/-- A first-attempt success stops the loop after one invocation with no
sleeps. -/
theorem runRetry_firstOk (op : Nat → Option String) (d start n : Nat)
    (last : Option String) (h : op start = none) :
    runRetry op d start (n + 1) last = ⟨none, 1, []⟩ := by
  simp [runRetry, h]

/-! ### Claims C2, C3: retry behavior of the fetch operations -/

/-- C2: for every maxRetries >= 0, each fetch wrapped by the retry
mechanism (the chart-URL download and the remote values-file download) is
invoked exactly maxRetries + 1 times when every attempt fails, returning
the last error, and exactly once when the first attempt succeeds, with the
fixed configured delay slept between attempts. -/
theorem claim_C2_retry_counts :
    (∀ (op : Nat → Option String) (err : Nat → String) (m d : Nat),
      (∀ i, op i = some (err i)) →
      chartURLFetch op m d =
        (.error ("failed to fetch the repository after retries: " ++ err m),
         m + 1, List.replicate (m + 1) d)) ∧
    (∀ (op : Nat → Option String) (m d : Nat), op 0 = none →
      chartURLFetch op m d = (.ok (), 1, [])) ∧
    (∀ (op : Nat → Option String) (err : Nat → String) (m d : Nat),
      (∀ i, op i = some (err i)) →
      valuesFileFetch op m d =
        (.error ("failed to fetch value file after retries: " ++ err m),
         m + 1, List.replicate (m + 1) d)) ∧
    (∀ (op : Nat → Option String) (m d : Nat), op 0 = none →
      valuesFileFetch op m d = (.ok (), 1, [])) := by
  refine ⟨?_, ?_, ?_, ?_⟩
  · intro op err m d h
    have := runRetry_allFail op err d h m 0 none
    simp [chartURLFetch, this]
  · intro op m d h
    have := runRetry_firstOk op d 0 m none h
    simp [chartURLFetch, this]
  · intro op err m d h
    have := runRetry_allFail op err d h m 0 none
    simp [valuesFileFetch, this]
  · intro op m d h
    have := runRetry_firstOk op d 0 m none h
    simp [valuesFileFetch, this]

/-- Witness for C2 at concrete inputs: three always-failing attempts for
maxRetries = 2, and a single invocation on first success. -/
theorem claim_C2_retry_counts_witness :
    chartURLFetch (fun _ => some "boom") 2 5 =
      (.error ("failed to fetch the repository after retries: " ++ "boom"),
       2 + 1, List.replicate (2 + 1) 5) ∧
    valuesFileFetch (fun _ => none) 7 5 = (.ok (), 1, []) :=
  ⟨claim_C2_retry_counts.1 (fun _ => some "boom") (fun _ => "boom") 2 5 (fun _ => rfl),
   claim_C2_retry_counts.2.2.2 (fun _ => none) 7 5 rfl⟩

/-- A git clone that always fails, used as the concrete input
refuting claim C3. -/
def alwaysFailingClone : Unit → Option (String × String) :=
  fun _ => some ("exit status 128", "fatal: repository not found")

/-- Counterexample to C3: with max_retries = 2, the git clone of a
git_repository source is attempted exactly once, not 2 + 1 times — the
clone is not wrapped by the retry mechanism. -/
theorem claim_C3_counterexample :
    (gitCloneStep 2 alwaysFailingClone).2 = 1 ∧
    (gitCloneStep 2 alwaysFailingClone).2 ≠ 2 + 1 := by
  constructor
  · rfl
  · decide

/-- C3 (amended): only the chart-URL download and the remote values-file
downloads are retried per the configured policy; the git clone and the
post_renderer_url script download are attempted exactly once regardless of
max_retries, with failure immediately fatal, naming the operation and the
underlying cause. -/
theorem claim_C3_single_attempt_fetches :
    (∀ (m : Nat) (rc : Unit → Option (String × String)), (gitCloneStep m rc).2 = 1) ∧
    (∀ (m : Nat) (e s : String) (rc : Unit → Option (String × String)),
      rc () = some (e, s) →
      (gitCloneStep m rc).1 =
        .error ("failed to clone the Git repository: " ++ e ++ "\nCommand output: " ++ s)) ∧
    (∀ (m : Nat) (g : Unit → Option String), (postRendererFetch m g).2 = 1) ∧
    (∀ (m : Nat) (e : String) (g : Unit → Option String),
      g () = some e →
      (postRendererFetch m g).1 = .error ("failed to download post-renderer script: " ++ e)) ∧
    (∀ (op : Nat → Option String) (err : Nat → String) (m d : Nat),
      (∀ i, op i = some (err i)) →
      chartURLFetch op m d =
        (.error ("failed to fetch the repository after retries: " ++ err m),
         m + 1, List.replicate (m + 1) d)) := by
  refine ⟨?_, ?_, ?_, ?_, ?_⟩
  · intro m rc
    cases h : rc () with
    | none => simp [gitCloneStep, h]
    | some p => simp [gitCloneStep, h]
  · intro m e s rc h
    simp [gitCloneStep, h]
  · intro m g
    cases h : g () with
    | none => simp [postRendererFetch, h]
    | some p => simp [postRendererFetch, h]
  · intro m e g h
    simp [postRendererFetch, h]
  · intro op err m d h
    have := runRetry_allFail op err d h m 0 none
    simp [chartURLFetch, this]

/-- Witness for the amended C3 at concrete inputs. -/
theorem claim_C3_single_attempt_fetches_witness :
    (gitCloneStep 4 alwaysFailingClone).1 =
      .error ("failed to clone the Git repository: " ++ "exit status 128" ++
        "\nCommand output: " ++ "fatal: repository not found") ∧
    (postRendererFetch 4 (fun _ => some "connection refused")).1 =
      .error ("failed to download post-renderer script: " ++ "connection refused") :=
  ⟨claim_C3_single_attempt_fetches.2.1 4 "exit status 128" "fatal: repository not found"
      alwaysFailingClone rfl,
   claim_C3_single_attempt_fetches.2.2.2.1 4 "connection refused"
      (fun _ => some "connection refused") rfl⟩

/-! ### Claim C4: token redaction in logged command lines -/

/-- The argument vector of a failing install invocation carrying a
resolved bearer token, as assembled by `helmCmdFunc` for a provider
configured with a static token. -/
def c4TokenArgs : List String :=
  ["/usr/local/bin/helm", "install", "nginx", "./chart", "--kube-token", "SECRET-TOKEN"]

/-- C4 is a code bug: the command line logged by the resource right
before executing install/upgrade (`tflog.Info` of `helmCmdString`) and the
command line embedded in the failure message are built by
`strings.Join(helmCmd.Args, " ")` without redaction, so the token value
appears verbatim in log output — while `redactHelmArgs`, applied only to
the provider's debug log, would have redacted it. -/
theorem claim_C4_token_logged_unredacted :
    helmCmdStringOf c4TokenArgs =
      "/usr/local/bin/helm install nginx ./chart --kube-token SECRET-TOKEN" ∧
    installLogLine c4TokenArgs =
      "\n\nRunning Helm command:\n  /usr/local/bin/helm install nginx ./chart --kube-token SECRET-TOKEN\n\n" ∧
    installFailureMsg "install" "exit status 1" "Error: INSTALLATION FAILED" c4TokenArgs =
      "failed to install the Helm chart: exit status 1\nHelm command: /usr/local/bin/helm install nginx ./chart --kube-token SECRET-TOKEN\nHelm output: Error: INSTALLATION FAILED" ∧
    redactHelmArgs c4TokenArgs =
      "/usr/local/bin/helm install nginx ./chart --kube-token REDACTED" ∧
    helmCmdStringOf c4TokenArgs ≠ redactHelmArgs c4TokenArgs := by
  refine ⟨?_, ?_, ?_, ?_, ?_⟩ <;> · set_option maxRecDepth 8000 in decide

/-! ### Claim C10: delete leaves state unchanged unless uninstall succeeds -/

/-- C10: `resourceHelmReleaseDelete` clears the resource id only after a
successful uninstall; every failure (command construction or subprocess)
returns an error — including the subprocess output — and leaves the id and
every stored field unchanged. -/
theorem claim_C10_delete_atomic :
    (∀ (st : ResourceState) (e : String),
      resourceHelmReleaseDelete st (.error e) = (st, some e)) ∧
    (∀ (st : ResourceState) (e output : String),
      resourceHelmReleaseDelete st (.ok (.error (e, output))) =
        (st, some ("failed to uninstall Helm release: " ++ e ++ ", Output: " ++ output))) ∧
    (∀ (st : ResourceState) (output : String),
      resourceHelmReleaseDelete st (.ok (.ok output)) = ({ st with id := "" }, none)) :=
  ⟨fun _ _ => rfl, fun _ _ _ => rfl, fun _ _ => rfl⟩

/-- Witness for C10 at a concrete persisted state and a failing
uninstall. -/
theorem claim_C10_delete_atomic_witness :
    resourceHelmReleaseDelete ⟨"default/nginx", [("release_status", "deployed")]⟩
        (.ok (.error ("exit status 1", "Error: uninstall failed"))) =
      (⟨"default/nginx", [("release_status", "deployed")]⟩,
       some ("failed to uninstall Helm release: " ++ "exit status 1" ++
         ", Output: " ++ "Error: uninstall failed")) ∧
    resourceHelmReleaseDelete ⟨"default/nginx", [("release_status", "deployed")]⟩
        (.ok (.ok "release \"nginx\" uninstalled")) =
      (⟨"", [("release_status", "deployed")]⟩, none) :=
  ⟨claim_C10_delete_atomic.2.1 ⟨"default/nginx", [("release_status", "deployed")]⟩
      "exit status 1" "Error: uninstall failed",
   claim_C10_delete_atomic.2.2 ⟨"default/nginx", [("release_status", "deployed")]⟩
      "release \"nginx\" uninstalled"⟩

/-! ### Claim C9: YAML sanitization -/

/-- C9: sanitization maps empty or whitespace-only input to the empty
string, is idempotent on valid YAML (given the external codec's
round-trip stability, stated pointwise as hypotheses), and fails on
malformed YAML. -/
theorem claim_C9_sanitize_idempotent :
    (∀ (V : Type) (c : YamlCodec V) (y : String), goTrim y = "" →
      sanitizeYAMLString c y = .ok "") ∧
    (∀ (V : Type) (c : YamlCodec V) (y s : String) (v w : V),
      goTrim y ≠ "" → c.unmarshal y = .ok v → c.marshal v = .ok s →
      goTrim s ≠ "" → c.unmarshal s = .ok w → c.marshal w = .ok s →
      sanitizeYAMLString c y = .ok s ∧ sanitizeYAMLString c s = .ok s) ∧
    (∀ (V : Type) (c : YamlCodec V) (y e : String), goTrim y ≠ "" →
      c.unmarshal y = .error e →
      sanitizeYAMLString c y = .error ("failed to parse YAML: " ++ e)) := by
  refine ⟨?_, ?_, ?_⟩
  · intro V c y hy
    simp [sanitizeYAMLString, hy]
  · intro V c y s v w hy hu hm hs hu2 hm2
    constructor
    · simp [sanitizeYAMLString, hy, hu, hm]
    · simp [sanitizeYAMLString, hs, hu2, hm2]
  · intro V c y e hy hu
    simp [sanitizeYAMLString, hy, hu]

/-- A concrete YAML codec used to instantiate codec-parametric theorems:
the single document re-serializes canonically as `doc: 1` with a trailing
newline, and the text `bad` fails to parse. -/
def unitYamlCodec : YamlCodec Unit where
  unmarshal s := if goTrim s = "bad" then .error "yaml: unmarshal errors" else .ok ()
  marshal _ := .ok "doc: 1\n"

/-- Witness for C9 at concrete inputs: whitespace-only input, a valid
document sanitized twice, and a malformed document. -/
theorem claim_C9_sanitize_idempotent_witness :
    sanitizeYAMLString unitYamlCodec "  \n " = .ok "" ∧
    (sanitizeYAMLString unitYamlCodec "doc:   1" = .ok "doc: 1\n" ∧
      sanitizeYAMLString unitYamlCodec "doc: 1\n" = .ok "doc: 1\n") ∧
    sanitizeYAMLString unitYamlCodec "bad" =
      .error ("failed to parse YAML: " ++ "yaml: unmarshal errors") :=
  ⟨claim_C9_sanitize_idempotent.1 Unit unitYamlCodec "  \n " (by decide),
   claim_C9_sanitize_idempotent.2.1 Unit unitYamlCodec "doc:   1" "doc: 1\n" () ()
     (by decide) rfl rfl (by decide) rfl rfl,
   claim_C9_sanitize_idempotent.2.2 Unit unitYamlCodec "bad" "yaml: unmarshal errors"
     (by decide) rfl⟩

/-! ### Claim C6: token resolution exemption for dependency builds -/

/-- Shared shape lemma: a non-dependency invocation whose token
resolution succeeds yields the base vector, auth flags, the token flag
when the token is non-empty, and the kubeconfig flag. -/
theorem helmCmdArgs_ok_of_token (p : String) (auth : KubeAuth)
    (eo : Except String String) (a : String) (rest : List String) (t : String)
    (ha : a ≠ "dependency") (ht : resolveKubeToken auth eo = .ok t) :
    helmCmdArgs p auth eo (a :: rest) =
      .ok ((p :: ((a :: rest) ++ baseAuthFlags auth)) ++
        (if t ≠ "" then ["--kube-token", t] else []) ++ kubeconfigFlags auth) := by
  simp [helmCmdArgs, helmCommandNeedsKubeToken, ha, ht]
  by_cases hti : t = ""
  · simp [hti]
  · simp [hti]

/-- C6: the dependency-build invocation performs no token resolution and
receives no `--kube-token` flag (its argument vector is independent of
the token fields and of the exec-credential outcome); every other
non-empty invocation resolves the token — static token first, else the
exec-credential outcome, else empty — and `--kube-token` is appended
exactly when the resolved token is non-empty, while the base auth flags
are applied identically to all invocations. -/
theorem claim_C6_dependency_token_exemption :
    (∀ (p : String) (auth : KubeAuth) (eo : Except String String) (rest : List String),
      helmCmdArgs p auth eo ("dependency" :: rest) =
        .ok ((p :: (("dependency" :: rest) ++ baseAuthFlags auth)) ++ kubeconfigFlags auth)) ∧
    (∀ (p a : String) (auth : KubeAuth) (eo : Except String String)
        (rest : List String) (t : String),
      a ≠ "dependency" → resolveKubeToken auth eo = .ok t → t ≠ "" →
      helmCmdArgs p auth eo (a :: rest) =
        .ok ((p :: ((a :: rest) ++ baseAuthFlags auth)) ++
          ["--kube-token", t] ++ kubeconfigFlags auth)) ∧
    (∀ (p a : String) (auth : KubeAuth) (eo : Except String String) (rest : List String),
      a ≠ "dependency" → resolveKubeToken auth eo = .ok "" →
      helmCmdArgs p auth eo (a :: rest) =
        .ok ((p :: ((a :: rest) ++ baseAuthFlags auth)) ++ kubeconfigFlags auth)) ∧
    (∀ (p a : String) (auth : KubeAuth) (eo : Except String String)
        (rest : List String) (e : String),
      a ≠ "dependency" → resolveKubeToken auth eo = .error e →
      helmCmdArgs p auth eo (a :: rest) = .error e) ∧
    (∀ (auth : KubeAuth) (eo : Except String String),
      auth.kubeToken ≠ "" → resolveKubeToken auth eo = .ok auth.kubeToken) ∧
    (∀ (auth : KubeAuth) (eo : Except String String),
      auth.kubeToken = "" → auth.kubeExec = none → resolveKubeToken auth eo = .ok "") ∧
    (∀ (auth : KubeAuth) (eo : Except String String) (k : KubeExec),
      auth.kubeToken = "" → auth.kubeExec = some k → resolveKubeToken auth eo = eo) := by
  refine ⟨?_, ?_, ?_, ?_, ?_, ?_, ?_⟩
  · intro p auth eo rest
    simp [helmCmdArgs, helmCommandNeedsKubeToken]
  · intro p a auth eo rest t ha ht htne
    rw [helmCmdArgs_ok_of_token p auth eo a rest t ha ht]
    simp [htne]
  · intro p a auth eo rest ha ht
    rw [helmCmdArgs_ok_of_token p auth eo a rest "" ha ht]
    simp
  · intro p a auth eo rest e ha ht
    simp [helmCmdArgs, helmCommandNeedsKubeToken, ha, ht]
  · intro auth eo h
    simp [resolveKubeToken, h]
  · intro auth eo h hx
    simp [resolveKubeToken, h, hx]
  · intro auth eo k h hx
    simp [resolveKubeToken, h, hx]

/-- A provider auth context with a static token, for witnesses. -/
def staticTokenAuth : KubeAuth :=
  ⟨"https://api.example.com:6443", "", "", "", "", false, "", "static-token",
   "/home/user/.kube/config", none⟩

/-- Witness for C6 at concrete inputs: a dependency build receives no
token flag even with a static token configured, and a list invocation
receives `--kube-token static-token`. -/
theorem claim_C6_dependency_token_exemption_witness :
    helmCmdArgs "helm" staticTokenAuth (.error "exec would fail")
        ["dependency", "build", "/tmp/chart"] =
      .ok (("helm" :: ((["dependency", "build", "/tmp/chart"]) ++
        baseAuthFlags staticTokenAuth)) ++ kubeconfigFlags staticTokenAuth) ∧
    helmCmdArgs "helm" staticTokenAuth (.error "exec would fail")
        ["list", "-n", "default"] =
      .ok (("helm" :: ((["list", "-n", "default"]) ++ baseAuthFlags staticTokenAuth)) ++
        ["--kube-token", "static-token"] ++ kubeconfigFlags staticTokenAuth) ∧
    resolveKubeToken staticTokenAuth (.error "exec would fail") = .ok "static-token" :=
  ⟨claim_C6_dependency_token_exemption.1 "helm" staticTokenAuth
      (.error "exec would fail") ["build", "/tmp/chart"],
   claim_C6_dependency_token_exemption.2.1 "helm" "list" staticTokenAuth
      (.error "exec would fail") ["-n", "default"] "static-token"
      (by decide) rfl (by decide),
   claim_C6_dependency_token_exemption.2.2.2.2.1 staticTokenAuth
      (.error "exec would fail") (by decide)⟩

/-! ### Claim C1: empty `helm list` result on reads -/

/-- A read environment in which `helm list` succeeds but returns an empty
result array. -/
def emptyListReadEnv : ReadEnv :=
  ⟨none, .ok (), .ok [], none, .ok "", none, .ok (), .ok []⟩

/-- Counterexample to C1: a data-source read for `nginx` in `default`
whose `helm list` returns an empty array fails fatally with the same
`failed to list Helm chart` error as a resource read — the data-source
read delegates to `resourceHelmReleaseRead` and does not tolerate the
empty result. -/
theorem claim_C1_counterexample :
    dataSourceHelmReleaseRead unitYamlCodec "nginx" "default" emptyListReadEnv =
      ("default/nginx", .error "failed to list Helm chart: nginx") := rfl

/-- C1 (amended): when `helm list` returns an empty result array, a
resource read fails with the fatal `failed to list Helm chart: <name>`
error, and a data-source read for the same name/namespace — after setting
its identity to `<namespace>/<name>` — delegates to the resource read and
fails with the identical fatal error. -/
theorem claim_C1_empty_list_fatal_for_both :
    ∀ (V : Type) (c : YamlCodec V) (name nspace : String) (env : ReadEnv),
      env.listBuild = none → env.listRun = .ok () → env.listParsed = .ok [] →
      resourceHelmReleaseRead c name env =
        .error ("failed to list Helm chart: " ++ name) ∧
      dataSourceHelmReleaseRead c name nspace env =
        (nspace ++ "/" ++ name, .error ("failed to list Helm chart: " ++ name)) := by
  intro V c name nspace env h1 h2 h3
  have hres : resourceHelmReleaseRead c name env =
      .error ("failed to list Helm chart: " ++ name) := by
    simp [resourceHelmReleaseRead, h1, h2, h3]
  exact ⟨hres, by simp [dataSourceHelmReleaseRead, hres]⟩

/-- Witness for the amended C1 at a concrete name, namespace and
environment. -/
theorem claim_C1_empty_list_fatal_for_both_witness :
    resourceHelmReleaseRead unitYamlCodec "my-release" emptyListReadEnv =
      .error ("failed to list Helm chart: " ++ "my-release") ∧
    dataSourceHelmReleaseRead unitYamlCodec "my-release" "kube-system" emptyListReadEnv =
      ("kube-system" ++ "/" ++ "my-release",
       .error ("failed to list Helm chart: " ++ "my-release")) :=
  claim_C1_empty_list_fatal_for_both Unit unitYamlCodec "my-release" "kube-system"
    emptyListReadEnv rfl rfl rfl

/-! ### Claim C7: chart string splitting on the last hyphen -/

/-- `strings.Split` never yields an empty slice. -/
theorem goSplitChars_ne_nil (sep : Char) (cs : List Char) : goSplitChars sep cs ≠ [] := by
  induction cs with
  | nil => simp [goSplitChars]
  | cons c rest ih =>
    by_cases hc : c = sep
    · simp [goSplitChars, hc]
    · simp only [goSplitChars, if_neg hc]
      cases hp : goSplitChars sep rest with
      | nil => simp
      | cons p ps => simp

/-- Splitting a separator-free list yields the singleton part. -/
theorem goSplitChars_no_sep (sep : Char) (cs : List Char) (h : sep ∉ cs) :
    goSplitChars sep cs = [cs] := by
  induction cs with
  | nil => rfl
  | cons c rest ih =>
    have hc : c ≠ sep := fun he => h (he ▸ List.mem_cons_self c rest)
    have hrest : sep ∉ rest := fun hm => h (List.mem_cons_of_mem c hm)
    simp [goSplitChars, hc, ih hrest]

/-- Splitting around the last separator: when `v` is separator-free, the
split of `n ++ sep :: v` is the split of `n` with `v` appended as the
final part. -/
theorem goSplitChars_append_sep (sep : Char) (v : List Char) (hv : sep ∉ v) :
    ∀ n : List Char, goSplitChars sep (n ++ sep :: v) = goSplitChars sep n ++ [v] := by
  intro n
  induction n with
  | nil => simp [goSplitChars, goSplitChars_no_sep sep v hv]
  | cons c n ih =>
    by_cases hc : c = sep
    · subst hc
      simp [goSplitChars, ih]
    · have hsplit : goSplitChars sep ((c :: n) ++ sep :: v)
          = match goSplitChars sep (n ++ sep :: v) with
            | [] => [[c]]
            | p :: ps => (c :: p) :: ps := by
        simp [goSplitChars, hc]
      rw [hsplit, ih]
      cases hp : goSplitChars sep n with
      | nil => exact absurd hp (goSplitChars_ne_nil sep n)
      | cons p ps => simp [goSplitChars, hc, hp]

/-- Joining undoes splitting. -/
theorem goJoinChars_goSplitChars (sep : Char) (cs : List Char) :
    goJoinChars sep (goSplitChars sep cs) = cs := by
  induction cs with
  | nil => rfl
  | cons c rest ih =>
    by_cases hc : c = sep
    · cases hp : goSplitChars sep rest with
      | nil => exact absurd hp (goSplitChars_ne_nil sep rest)
      | cons p ps =>
        rw [hp] at ih
        simp [goSplitChars, hc, goJoinChars, hp, ih]
    · cases hp : goSplitChars sep rest with
      | nil => exact absurd hp (goSplitChars_ne_nil sep rest)
      | cons p ps =>
        rw [hp] at ih
        cases ps with
        | nil =>
          simp only [goJoinChars] at ih
          simp [goSplitChars, hc, hp, goJoinChars, ih]
        | cons q qs =>
          simp only [goJoinChars] at ih
          simp [goSplitChars, hc, hp, goJoinChars, ih]

/-- The default of `getLastD` is unreachable on a list with a final
element. -/
theorem getLastD_append_singleton {α : Type} (l : List α) (a b : α) :
    (l ++ [a]).getLastD b = a := by
  induction l generalizing b with
  | nil => rfl
  | cons x xs ih =>
    rw [List.cons_append, List.getLastD_cons]
    exact ih x

/-- Dropping the last element of a list with a final element appended. -/
theorem dropLast_append_singleton {α : Type} (l : List α) (a : α) :
    (l ++ [a]).dropLast = l := by
  simp

/-- C7: the read splits the chart string on the last hyphen —
`release_chart_version` is the substring after the last hyphen and
`release_chart_name` the substring before it; a successful read stores
exactly these split results; the two documented examples hold. -/
theorem claim_C7_chart_split_last_hyphen :
    (∀ (n v : List Char), '-' ∉ v →
      chartVersionOf (String.mk (n ++ '-' :: v)) = String.mk v ∧
      chartNameOf (String.mk (n ++ '-' :: v)) = String.mk n) ∧
    (∀ (V : Type) (c : YamlCodec V) (name sv y : String) (entry : HelmListEntry)
        (fs : List (String × JVal)),
      sanitizeYAMLString c y = .ok sv →
      resourceHelmReleaseRead c name ⟨none, .ok (), .ok [entry], none, .ok y, none, .ok (), .ok fs⟩ =
        .ok ⟨chartNameOf entry.chart, chartVersionOf entry.chart, entry.revision,
             entry.status, sv, jsonMapToStringMap fs⟩) ∧
    (chartVersionOf "nginx-13.2.1" = "13.2.1" ∧ chartNameOf "nginx-13.2.1" = "nginx") ∧
    (chartVersionOf "my-chart-name-1.0.0" = "1.0.0" ∧
      chartNameOf "my-chart-name-1.0.0" = "my-chart-name") := by
  refine ⟨?_, ?_, by decide, by decide⟩
  · intro n v hv
    constructor
    · show String.mk ((goSplitChars '-' (String.mk (n ++ '-' :: v)).data).getLastD []) = _
      rw [show (String.mk (n ++ '-' :: v)).data = n ++ '-' :: v from rfl,
        goSplitChars_append_sep '-' v hv n, getLastD_append_singleton]
    · show String.mk (goJoinChars '-' (goSplitChars '-' (String.mk (n ++ '-' :: v)).data).dropLast) = _
      rw [show (String.mk (n ++ '-' :: v)).data = n ++ '-' :: v from rfl,
        goSplitChars_append_sep '-' v hv n, dropLast_append_singleton,
        goJoinChars_goSplitChars]
  · intro V c name sv y entry fs hy
    simp [resourceHelmReleaseRead, hy]

/-- Witness for C7: the general split statement applied to
`nginx-13.2.1`, and a concrete successful read storing the split
results. -/
theorem claim_C7_chart_split_last_hyphen_witness :
    (chartVersionOf (String.mk ("nginx".data ++ '-' :: "13.2.1".data)) =
        String.mk "13.2.1".data ∧
      chartNameOf (String.mk ("nginx".data ++ '-' :: "13.2.1".data)) =
        String.mk "nginx".data) ∧
    resourceHelmReleaseRead unitYamlCodec "web"
        ⟨none, .ok (), .ok [⟨"web", "default", "3", "2024-01-01", "deployed",
          "my-chart-name-1.0.0", "1.23.4"⟩], none, .ok "doc:   1", none, .ok (), .ok []⟩ =
      .ok ⟨chartNameOf "my-chart-name-1.0.0", chartVersionOf "my-chart-name-1.0.0",
           "3", "deployed", "doc: 1\n", jsonMapToStringMap []⟩ :=
  ⟨claim_C7_chart_split_last_hyphen.1 "nginx".data "13.2.1".data (by decide),
   claim_C7_chart_split_last_hyphen.2.1 Unit unitYamlCodec "web" "doc: 1\n" "doc:   1"
     ⟨"web", "default", "3", "2024-01-01", "deployed", "my-chart-name-1.0.0", "1.23.4"⟩
     [] rfl⟩

/-! ### Claim C5: exec-credential token extraction -/

/-- The first non-empty string of a list is its head when the head is
non-empty. -/
theorem firstNonEmpty_cons_ne (s : String) (l : List String) (h : s ≠ "") :
    firstNonEmpty (s :: l) = s := by
  simp [firstNonEmpty, h]

/-- `firstNonEmpty` of an all-empty list is empty. -/
theorem firstNonEmpty_all_empty (l : List String) (h : ∀ s ∈ l, s = "") :
    firstNonEmpty l = "" := by
  induction l with
  | nil => rfl
  | cons s rest ih =>
    have hs : s = "" := h s (List.mem_cons_self s rest)
    simp [firstNonEmpty, hs, ih (fun x hx => h x (List.mem_cons_of_mem s hx))]

/-- C5: token extraction from exec-credential output.  A trimmed
non-empty stdout string not starting with a JSON opener is itself the
token; a JSON string literal yields its trimmed contents, empty after
trim being a `missing token field` error; invalid JSON is wrapped in a
`not valid JSON` error; a JSON object is probed through the preferred
paths in priority order — a non-empty `status.token` hit wins over
everything — with case- and separator-insensitive key matching, falling
back to the recursive field scan when every path misses, and yielding the
`missing token field` error when the whole search comes back empty. -/
theorem claim_C5_token_extraction :
    (∀ (output : String) (parsed : Except String JVal) (c : Char) (cs : List Char),
      output.data = c :: cs →
      c ≠ Char.ofNat 123 → c ≠ Char.ofNat 91 → c ≠ Char.ofNat 34 →
      parseKubeExecToken output parsed = .ok output) ∧
    (∀ (output s : String), looksLikeJSON output = true → goTrim s ≠ "" →
      parseKubeExecToken output (.ok (.jstr s)) = .ok (goTrim s)) ∧
    (∀ (output s : String), looksLikeJSON output = true → goTrim s = "" →
      parseKubeExecToken output (.ok (.jstr s)) =
        .error "kube_exec output JSON missing token field") ∧
    (∀ (output e : String), looksLikeJSON output = true →
      parseKubeExecToken output (.error e) =
        .error ("kube_exec output is not valid JSON: " ++ e)) ∧
    (∀ (fields : List (String × JVal)),
      getStringByPath (.jobj fields) ["status", "token"] ≠ "" →
      extractTokenFromJSONValue (.jobj fields) =
        getStringByPath (.jobj fields) ["status", "token"]) ∧
    (∀ (fields : List (String × JVal)),
      (∀ p ∈ preferredPaths, getStringByPath (.jobj fields) p = "") →
      extractTokenFromJSONValue (.jobj fields) = extractTokenFromFields fields) ∧
    (∀ (output : String) (fields : List (String × JVal)),
      looksLikeJSON output = true →
      extractTokenFromJSONValue (.jobj fields) ≠ "" →
      parseKubeExecToken output (.ok (.jobj fields)) =
        .ok (extractTokenFromJSONValue (.jobj fields))) ∧
    (∀ (output : String) (fields : List (String × JVal)),
      looksLikeJSON output = true →
      extractTokenFromJSONValue (.jobj fields) = "" →
      parseKubeExecToken output (.ok (.jobj fields)) =
        .error "kube_exec output JSON missing token field") ∧
    (∀ (key lookup : String) (v : JVal) (fields : List (String × JVal)),
      normalizeTokenKey key = normalizeTokenKey lookup →
      getByNormalizedKey ((key, v) :: fields) lookup = some v) ∧
    (normalizeTokenKey "Access-Token" = normalizeTokenKey "accessToken" ∧
      normalizeTokenKey "ID_TOKEN" = normalizeTokenKey "idToken" ∧
      isTokenKey "Access-Token" = true) := by
  have hne : ∀ (output : String) (c : Char) (cs : List Char),
      output.data = c :: cs → output ≠ "" := by
    intro output c cs hd h
    rw [h] at hd
    exact List.noConfusion hd
  have hneJSON : ∀ output : String, looksLikeJSON output = true → output ≠ "" := by
    intro output h he
    rw [he] at h
    exact Bool.noConfusion h
  refine ⟨?_, ?_, ?_, ?_, ?_, ?_, ?_, ?_, ?_, ?_⟩
  · intro output parsed c cs hd hc1 hc2 hc3
    have h1 : output ≠ "" := hne output c cs hd
    have h2 : looksLikeJSON output = false := by
      simp [looksLikeJSON, hd, hc1, hc2, hc3]
    simp [parseKubeExecToken, h1, h2]
  · intro output s hlook hs
    simp [parseKubeExecToken, hneJSON output hlook, hlook, hs]
  · intro output s hlook hs
    simp [parseKubeExecToken, hneJSON output hlook, hlook, hs]
  · intro output e hlook
    simp [parseKubeExecToken, hneJSON output hlook, hlook]
  · intro fields h
    simp only [extractTokenFromJSONValue, preferredPaths, List.map_cons]
    rw [firstNonEmpty_cons_ne _ _ h]
    simp [h]
  · intro fields h
    have hall : ∀ s ∈ preferredPaths.map (getStringByPath (.jobj fields)), s = "" := by
      intro s hs
      obtain ⟨p, hp, hps⟩ := List.mem_map.mp hs
      exact hps ▸ h p hp
    simp only [extractTokenFromJSONValue]
    rw [firstNonEmpty_all_empty _ hall]
    simp
  · intro output fields hlook hex
    simp [parseKubeExecToken, hneJSON output hlook, hlook, hex]
  · intro output fields hlook hex
    simp [parseKubeExecToken, hneJSON output hlook, hlook, hex]
  · intro key lookup v fields hk
    simp [getByNormalizedKey, hk]
  · refine ⟨by decide, by decide, by decide⟩

/-- A decoded exec-credential object carrying `status.token`. -/
def statusTokenFields : List (String × JVal) :=
  [("status", .jobj [("token", .jstr "exec-token")])]

/-- A decoded object with no token-family key anywhere. -/
def kindOnlyFields : List (String × JVal) :=
  [("kind", .jstr "ExecCredential")]

/-- Witness for C5 at the documented concrete outputs: raw text, a quoted
token, invalid JSON, the `status.token` path, a missing token field, and
an insensitive key match. -/
theorem claim_C5_token_extraction_witness :
    parseKubeExecToken "raw-token" (.error "never parsed") = .ok "raw-token" ∧
    parseKubeExecToken "\"quoted-token\"" (.ok (.jstr " quoted-token ")) =
      .ok (goTrim " quoted-token ") ∧
    parseKubeExecToken "\x7binvalid\x7d" (.error "bad json") =
      .error ("kube_exec output is not valid JSON: " ++ "bad json") ∧
    extractTokenFromJSONValue (.jobj statusTokenFields) =
      getStringByPath (.jobj statusTokenFields) ["status", "token"] ∧
    parseKubeExecToken "\x7b\"status\":\x7b\"token\":\"exec-token\"\x7d\x7d"
        (.ok (.jobj statusTokenFields)) =
      .ok (extractTokenFromJSONValue (.jobj statusTokenFields)) ∧
    parseKubeExecToken "\x7b\"kind\":\"ExecCredential\"\x7d"
        (.ok (.jobj kindOnlyFields)) =
      .error "kube_exec output JSON missing token field" ∧
    getByNormalizedKey [("Access-Token", .jstr "azure-token")] "accessToken" =
      some (.jstr "azure-token") :=
  ⟨claim_C5_token_extraction.1 "raw-token" (.error "never parsed") 'r' "aw-token".data
      (by decide) (by decide) (by decide) (by decide),
   claim_C5_token_extraction.2.1 "\"quoted-token\"" " quoted-token " (by decide) (by decide),
   claim_C5_token_extraction.2.2.2.1 "\x7binvalid\x7d" "bad json" (by decide),
   claim_C5_token_extraction.2.2.2.2.1 statusTokenFields (by decide),
   claim_C5_token_extraction.2.2.2.2.2.2.1
      "\x7b\"status\":\x7b\"token\":\"exec-token\"\x7d\x7d" statusTokenFields
      (by decide) (by decide),
   claim_C5_token_extraction.2.2.2.2.2.2.2.1 "\x7b\"kind\":\"ExecCredential\"\x7d"
      kindOnlyFields (by decide) (by decide),
   claim_C5_token_extraction.2.2.2.2.2.2.2.2.1 "Access-Token" "accessToken"
      (.jstr "azure-token") [] (by decide)⟩

/-! ### Claim C8: values-file flag ordering -/

/-- Membership helper: not in either part, not in the concatenation. -/
theorem notMemAppend {α : Type} {a : α} {xs ys : List α}
    (hx : a ∉ xs) (hy : a ∉ ys) : a ∉ xs ++ ys :=
  fun hm => (List.mem_append.mp hm).elim hx hy

/-- Membership helper: differs from the head and not in the tail. -/
theorem notMemCons {α : Type} {a x : α} {xs : List α}
    (h1 : a ≠ x) (h2 : a ∉ xs) : a ∉ x :: xs :=
  fun hm => (List.mem_cons.mp hm).elim h1 h2

/-- A non-`-f` head is skipped by the extraction. -/
theorem fFlagValues_cons_ne (a : String) (rest : List String) (h : a ≠ "-f") :
    fFlagValues (a :: rest) = fFlagValues rest := by
  simp [fFlagValues, h]

/-- A `-f` head takes the following argument as a value. -/
theorem fFlagValues_cons_f (v : String) (rest : List String) :
    fFlagValues ("-f" :: v :: rest) = v :: fFlagValues rest := by
  simp [fFlagValues, fFlagTake]

/-- A block free of `-f` contributes nothing to the extraction. -/
theorem fFlagValues_append_no_f (xs ys : List String) (h : "-f" ∉ xs) :
    fFlagValues (xs ++ ys) = fFlagValues ys := by
  induction xs with
  | nil => rfl
  | cons a xs ih =>
    have ha : a ≠ "-f" := fun he => h (by rw [← he]; exact List.mem_cons_self a xs)
    rw [List.cons_append, fFlagValues_cons_ne a _ ha]
    exact ih (fun hm => h (List.mem_cons_of_mem a hm))

/-- A vector free of `-f` extracts to nothing. -/
theorem fFlagValues_eq_nil (xs : List String) (h : "-f" ∉ xs) :
    fFlagValues xs = [] := by
  have := fFlagValues_append_no_f xs [] h
  simpa using this

/-- The `-f` flags of the values files extract to exactly their paths, in
order, followed by whatever the tail extracts. -/
theorem fFlagValues_flags_append (paths ys : List String) :
    fFlagValues (valuesFileFlags paths ++ ys) = paths ++ fFlagValues ys := by
  induction paths with
  | nil => simp [valuesFileFlags, fFlagValues]
  | cons p ps ih =>
    have hflag : valuesFileFlags (p :: ps) = "-f" :: p :: valuesFileFlags ps := by
      simp [valuesFileFlags]
    rw [hflag, List.cons_append, List.cons_append, fFlagValues_cons_f, ih,
      List.cons_append]

/-- A remote chart-repository URL is never the literal `-f` (it carries an
`http(s)://` scheme). -/
theorem chartRepoURLOf_ne_dashF (I : InstallInputs) : chartRepoURLOf I ≠ "-f" := by
  unfold chartRepoURLOf
  split
  · next h =>
    intro he
    rw [he] at h
    exact absurd h.2 (by decide)
  · decide

/-- The `--repo` flag block never contains `-f`. -/
theorem repoFlags_no_f (I : InstallInputs) :
    "-f" ∉ (if chartRepoURLOf I ≠ "" then ["--repo", chartRepoURLOf I] else []) := by
  by_cases h : chartRepoURLOf I ≠ ""
  · rw [if_pos h]
    exact notMemCons (by decide)
      (notMemCons (fun he => chartRepoURLOf_ne_dashF I he.symm) (List.not_mem_nil _))
  · rw [if_neg h]
    exact List.not_mem_nil _

/-- C8: in the install/upgrade argument vector, the `-f` flags list the
resolved values files in exactly the caller-supplied order, followed by
the materialized inline-values file as the final `-f` flag (so inline
values have the highest precedence), provided none of the surrounding
argument strings is the literal `-f`. -/
theorem claim_C8_values_order :
    ∀ (md5hex : String → String) (I : InstallInputs) (t : String),
      resolveKubeToken I.auth I.execOutcome = .ok t →
      t ≠ "-f" → I.helmBinPath ≠ "-f" → I.name ≠ "-f" →
      fullChartPathOf md5hex I ≠ "-f" →
      "-f" ∉ baseAuthFlags I.auth → "-f" ∉ kubeconfigFlags I.auth →
      "-f" ∉ installArgvTrailer md5hex I →
      I.values ≠ "" →
      ∃ argv, installArgv md5hex I = .ok argv ∧
        fFlagValues argv =
          resolveValuesFilePaths md5hex I ++ [inlineValuesFilePathOf md5hex I] := by
  intro md5 I t ht htf hbin hname hchart hauth hkube htrail hval
  have ha : (if I.isUpdate then "upgrade" else "install") ≠ "dependency" := by
    cases I.isUpdate <;> decide
  have haNF : (if I.isUpdate then "upgrade" else "install") ≠ "-f" := by
    cases I.isUpdate <;> decide
  have hb := helmCmdArgs_ok_of_token I.helmBinPath I.auth I.execOutcome
    (if I.isUpdate then "upgrade" else "install") [I.name, fullChartPathOf md5 I] t ha ht
  have hTF : "-f" ∉ (if t ≠ "" then ["--kube-token", t] else []) := by
    by_cases htt : t = ""
    · simp [htt]
    · rw [if_pos htt]
      exact notMemCons (by decide) (notMemCons (fun he => htf he.symm) (List.not_mem_nil _))
  have hfile : (if I.valuesFiles ≠ [] then
      valuesFileFlags (resolveValuesFilePaths md5 I) else []) =
      valuesFileFlags (resolveValuesFilePaths md5 I) := by
    by_cases hvv : I.valuesFiles = []
    · simp [hvv, resolveValuesFilePaths, valuesFileFlags]
    · simp [hvv]
  have hargv : installArgv md5 I = .ok (
      ((I.helmBinPath :: (((if I.isUpdate then "upgrade" else "install") ::
          [I.name, fullChartPathOf md5 I]) ++ baseAuthFlags I.auth)) ++
        (if t ≠ "" then ["--kube-token", t] else []) ++ kubeconfigFlags I.auth) ++
      (if chartRepoURLOf I ≠ "" then ["--repo", chartRepoURLOf I] else []) ++
      valuesFileFlags (resolveValuesFilePaths md5 I) ++
      ["-f", inlineValuesFilePathOf md5 I] ++
      installArgvTrailer md5 I) := by
    simp only [installArgv, hb, hfile, if_pos hval]
  refine ⟨_, hargv, ?_⟩
  simp only [List.append_assoc, List.cons_append, List.nil_append]
  rw [fFlagValues_cons_ne _ _ hbin, fFlagValues_cons_ne _ _ haNF,
    fFlagValues_cons_ne _ _ hname, fFlagValues_cons_ne _ _ hchart,
    fFlagValues_append_no_f _ _ hauth, fFlagValues_append_no_f _ _ hTF,
    fFlagValues_append_no_f _ _ hkube, fFlagValues_append_no_f _ _ (repoFlags_no_f I),
    fFlagValues_flags_append, fFlagValues_cons_f, fFlagValues_eq_nil _ htrail]

/-- A constant stand-in for the external md5 hex digest, used by
witnesses (the provider truncates whatever digest it receives to 8
characters). -/
def c8Md5 : String → String := fun _ => "0123456789abcdef0123456789abcdef"

/-- Concrete create inputs for the C8 witness: a git-sourced chart with
two values files, inline values, a timeout and a custom argument. -/
def c8Inputs : InstallInputs :=
  ⟨"helm", staticTokenAuth, .ok "", false, "nginx", "",
   "https://example.com/charts.git", "main", "bitnami/nginx", "",
   ".terraform/terrahelm_cache", "replicaCount: 1",
   ["./values/a.yaml", "https://example.com/b.yaml"], "default", true, "",
   false, true, false, "60", "", "", ["--skip-crds"], 3⟩

/-- Witness for C8 at the concrete inputs. -/
theorem claim_C8_values_order_witness :
    ∃ argv, installArgv c8Md5 c8Inputs = .ok argv ∧
      fFlagValues argv = resolveValuesFilePaths c8Md5 c8Inputs ++
        [inlineValuesFilePathOf c8Md5 c8Inputs] :=
  claim_C8_values_order c8Md5 c8Inputs "static-token" rfl (by decide) (by decide)
    (by decide) (by decide) (by decide) (by decide) (by decide) (by decide)
